import Mathlib

/-!
Shallow embedding of the FusionFall monitor client
(`src/utils/Util.ts`, function `connectFusionFall`) of the
FusionFall-Bot repository, together with proofs checking the
natural-language specification's claims against it.

Conventions of the embedding:
* JS strings are Lean `String`s; all JS string primitives used by the
  source (`toLowerCase`, `split(' ')`, `substring`, `startsWith`,
  `includes`, indexing `[0]`) are re-implemented below on `List Char`
  so that every definition reduces in the kernel.
* JS array primitives (`indexOf`, `slice`, `includes`) are modelled
  with their exact JS semantics (`indexOf` returns -1 when absent,
  `slice` clamps and supports negative indices).
* The mutable session state (`buffer`, `population`, `online`, the
  messages sent to the Discord channels, the console warnings, the
  presence activity) is threaded explicitly as a `SessionState`.
* The hard-coded `const debug = false` of the source is baked in: the
  `if (!debug)` branches are taken.
* A thrown JS `TypeError` (reading `[0]` of `undefined` past the end
  of the block in the email loop) is modelled as the explicit outcome
  `POut.crash`.
-/

/-! ## String primitives (JS semantics on `List Char`) -/

/-- JS `s.toLowerCase()` (ASCII range; protocol text is ASCII). -/
def strToLower (s : String) : String := ⟨s.toList.map Char.toLower⟩

/-- JS `s.substring(n)` for `n ≥ 0`: drop the first `n` chars. -/
def strDrop (s : String) (n : Nat) : String := ⟨s.toList.drop n⟩

/-- JS `s.length` (UTF-16 units; chat text is in the BMP). -/
def strLen (s : String) : Nat := s.toList.length

/-- JS `s.startsWith(pre)`. -/
def strStartsWith (s pre : String) : Bool := pre.toList.isPrefixOf s.toList

/-- JS `s[0] === '\t'` (false on the empty string, where `s[0]` is
`undefined`). -/
def startsWithTab (s : String) : Bool :=
  match s.toList with
  | '\t' :: _ => true
  | _ => false

/-- `pat` occurs as a contiguous sublist of the second argument. -/
def occursIn (pat : List Char) : List Char → Bool
  | [] => pat.isPrefixOf []
  | c :: cs => pat.isPrefixOf (c :: cs) || occursIn pat cs

/-- JS `s.includes(pat)`: substring containment. -/
def strContains (s pat : String) : Bool := occursIn pat.toList s.toList

/-- JS `s.split(' ')` on char lists: split on every single space,
keeping empty pieces. -/
def splitSp : List Char → List (List Char)
  | [] => [[]]
  | c :: cs =>
    if c = ' ' then [] :: splitSp cs
    else
      match splitSp cs with
      | t :: ts => (c :: t) :: ts
      | [] => [[c]]

/-- JS `s.split(' ')` as strings. -/
def splitSpaces (s : String) : List String := (splitSp s.toList).map String.mk

/-- First whitespace-delimited token of a line: JS `line.split(' ')[0]`. -/
def firstTokL : List Char → List Char
  | [] => []
  | c :: cs => if c = ' ' then [] else c :: firstTokL cs

/-- JS `line.split(' ')[0]`. -/
def firstTok (line : String) : String := ⟨firstTokL line.toList⟩

/-- Everything after the first space, if any. -/
def headL : List Char → Option (List Char)
  | [] => none
  | c :: cs => if c = ' ' then some cs else headL cs

/-- JS `line.substring(line.indexOf(' ') + 1)`: the remainder after the
first space; `indexOf` is -1 when there is no space, so the whole line. -/
def headOf (line : String) : String :=
  match headL line.toList with
  | some r => ⟨r⟩
  | none => line

/-! ## JS array primitives -/

/-- First index of `x` in `l` if present. -/
def idxOf₀ (x : String) : List String → Option Nat
  | [] => none
  | y :: ys => if y = x then some 0 else (idxOf₀ x ys).map (· + 1)

/-- JS `Array.prototype.indexOf`: -1 when absent. -/
def jsIndexOf (l : List String) (x : String) : Int :=
  match idxOf₀ x l with
  | some n => (n : Int)
  | none => -1

/-- JS `Array.prototype.slice(a, b)`: negative indices count from the
end; both bounds are clamped to `[0, length]`. -/
def jsSlice {α : Type} (l : List α) (a b : Int) : List α :=
  let norm : Int → Nat := fun i =>
    min ((if i < 0 then (l.length : Int) + i else i).toNat) l.length
  (l.drop (norm a)).take (norm b - norm a)

/-- discord.js `codeBlock(lang, content)`. -/
def codeBlock (lang content : String) : String :=
  "```" ++ lang ++ "\n" ++ content ++ "\n```"

/-! ## Banned-word filter (Util.ts lines 220-228)

The source computes
`words.some((word) => message.toLowerCase().split(' ').includes(word.toLowerCase()))`.
-/

/-- The banned-word predicate exactly as the source computes it:
some configured word, lower-cased, is *equal to* one of the
space-delimited tokens of the lower-cased message. -/
def hasBannedWord (words : List String) (message : String) : Bool :=
  words.any (fun word => (splitSpaces (strToLower message)).contains (strToLower word))

/-- The banned-word predicate as the *specification* words it
("any listed word appears as a case-insensitive substring anywhere in
the message, not limited to whole-word boundaries"); written only to be
compared with `hasBannedWord`, which is the one taken from the source. -/
def hasBannedWordSpec (words : List String) (message : String) : Bool :=
  words.any (fun word => strContains (strToLower message) (strToLower word))

/-! ## The chat-line pattern (Util.ts line 207)

The source matches `cnt` against the JS regex

  `/^\[(.*?)](?: \((.*?)\))? (.*?) \[(.*?)]?: (.*)/`

(anchored at the start, groups: timestamp, optional role, username,
identifier, message).  The functions below implement exactly the JS
backtracking search for this one pattern, in the JS priority order:
lazy groups try the fewest characters first and extend one character at
a time on failure of the remainder; the optional groups (`(?: ...)?`
and `]?`) greedily try to participate first.  Note that in the pattern
only the *closing* bracket of the identifier segment is optional: the
` \[` before it is mandatory.
-/

/-- Matcher for the pattern tail `(.*?)]?: (.*)` : returns the
identifier capture and the message capture, trying shorter identifiers
first, at each position preferring to consume a `]`. -/
def jsMatchIdTail : List Char → Option (List Char × List Char)
  | ']' :: ':' :: ' ' :: rest => some ([], rest)
  | ':' :: ' ' :: rest => some ([], rest)
  | c :: cs => (jsMatchIdTail cs).map (fun r => (c :: r.1, r.2))
  | [] => none

/-- Matcher for the pattern tail `(.*?) \[(.*?)]?: (.*)` (no leading
space): returns username, identifier, message.  The username group
consumes characters one at a time; at each ` [` it first tries the
identifier tail and falls back to extending the username. -/
def jsMatchUserTail : List Char → Option (List Char × List Char × List Char)
  | [] => none
  | ' ' :: cs =>
    (match cs with
     | '[' :: rest =>
       (match jsMatchIdTail rest with
        | some r => some ([], r.1, r.2)
        | none => (jsMatchUserTail cs).map (fun r => (' ' :: r.1, r.2.1, r.2.2)))
     | _ => (jsMatchUserTail cs).map (fun r => (' ' :: r.1, r.2.1, r.2.2)))
  | c :: cs => (jsMatchUserTail cs).map (fun r => (c :: r.1, r.2.1, r.2.2))

/-- Matcher for ` (.*?) \[(.*?)]?: (.*)` (with the mandatory leading
space of the pattern). -/
def jsMatchSpUserTail : List Char → Option (List Char × List Char × List Char)
  | ' ' :: cs => jsMatchUserTail cs
  | _ => none

/-- Matcher for `(.*?)\)` followed by ` (.*?) \[(.*?)]?: (.*)`: the
role capture (lazy) and the rest; used inside the optional role group
after its opening ` (`. -/
def jsMatchRoleScan : List Char → Option (List Char × List Char × List Char × List Char)
  | [] => none
  | ')' :: rest =>
    (match jsMatchSpUserTail rest with
     | some r => some ([], r.1, r.2.1, r.2.2)
     | none => (jsMatchRoleScan rest).map (fun r => (')' :: r.1, r.2.1, r.2.2.1, r.2.2.2)))
  | c :: cs => (jsMatchRoleScan cs).map (fun r => (c :: r.1, r.2.1, r.2.2.1, r.2.2.2))

/-- Matcher for `(?: \((.*?)\))? (.*?) \[(.*?)]?: (.*)` (everything
after the closing `]` of the timestamp).  The optional role group is
greedy: it participates when the input starts with ` (` and the rest
matches, otherwise the group is skipped. -/
def jsMatchAfterTs (s : List Char) : Option (Option (List Char) × List Char × List Char × List Char) :=
  match s with
  | ' ' :: '(' :: rest =>
    (match jsMatchRoleScan rest with
     | some r => some (some r.1, r.2.1, r.2.2.1, r.2.2.2)
     | none => (jsMatchSpUserTail s).map (fun r => (none, r.1, r.2.1, r.2.2)))
  | _ => (jsMatchSpUserTail s).map (fun r => (none, r.1, r.2.1, r.2.2))

/-- Matcher for `(.*?)]` followed by the rest of the pattern: the
timestamp capture (lazy, extended on failure of the remainder). -/
def jsMatchTsScan : List Char → Option (List Char × Option (List Char) × List Char × List Char × List Char)
  | [] => none
  | ']' :: rest =>
    (match jsMatchAfterTs rest with
     | some r => some ([], r.1, r.2.1, r.2.2.1, r.2.2.2)
     | none => (jsMatchTsScan rest).map (fun r => (']' :: r.1, r.2.1, r.2.2.1, r.2.2.2.1, r.2.2.2.2)))
  | c :: cs => (jsMatchTsScan cs).map (fun r => (c :: r.1, r.2.1, r.2.2.1, r.2.2.2.1, r.2.2.2.2))

/-- The capture groups of a successful chat-line match.  In JS the role
group may not participate (`undefined`), hence `Option`; the identifier
group always participates when the pattern matches (possibly as the
empty string, which is falsy in JS). -/
structure ChatMatch where
  timestamp : String
  role : Option String
  username : String
  identifier : String
  message : String
deriving DecidableEq

/-- JS `cnt.match(chatRegex)` for the source's `chatRegex` (anchored by
`^`, so the input must begin with `[`). -/
def jsChatMatch (cnt : String) : Option ChatMatch :=
  match cnt.toList with
  | '[' :: rest =>
    (jsMatchTsScan rest).map (fun r =>
      { timestamp := ⟨r.1⟩
        role := r.2.1.map (fun l => ⟨l⟩)
        username := ⟨r.2.2.1⟩
        identifier := ⟨r.2.2.2.1⟩
        message := ⟨r.2.2.2.2⟩ })
  | _ => none

/-! ## Session state and environment

`connectFusionFall` closes over the mutable variables `online`,
`population` and `buffer`; the sends to the Discord channels, the
console warnings and the presence activity are the observable effects.
All are threaded explicitly.  The environment fixes what the source
reads from `process.env` and the channel cache on each iteration:
whether `ChannelId` resolves to a guild-text channel, whether
`StaffChannelId` is configured and resolves (the truthiness of
`staffChannel`), and the static banned-word list `words`.
-/

structure SessionState where
  buffer : List String
  population : Nat
  online : Bool
  /-- Messages passed to `channel.send` (the public relay sink), in order. -/
  sends : List String
  /-- Messages passed to `staffChannel.send` (the moderation sink), in order. -/
  staffSends : List String
  /-- Console warnings, in order. -/
  logs : List String
  /-- The last `client.user.setActivity` text, if any. -/
  activity : Option String
deriving DecidableEq

structure Env where
  /-- `ChannelId` resolves in the cache to a `GuildText` channel. -/
  channelOk : Bool
  /-- `StaffChannelId` is set and resolves (line 193): `staffChannel` is truthy. -/
  staffConfigured : Bool
  /-- The static banned-word list imported from `bannedWords.json`. -/
  words : List String
deriving DecidableEq

/-- Outcome of one `processBuffer` invocation.
* `done`: ran to the end of the function (line 253 included).
* `retEarly`: the `return` at line 194 (channel missing or not guild
  text), which skips the rest of the function, including the final
  buffer truncation.
* `crash`: a thrown JS `TypeError` — `queue[i + j][0]` at line 236 with
  `i + j` past the end of `queue` reads `[0]` of `undefined`.  The
  exception propagates out of the data handler; the state mutated so
  far (carried here) persists. -/
inductive POut where
  | done (st : SessionState)
  | retEarly (st : SessionState)
  | crash (st : SessionState)
  | outOfFuel (st : SessionState)
deriving DecidableEq

/-- The state carried by any outcome. -/
def POut.state : POut → SessionState
  | .done st => st
  | .retEarly st => st
  | .crash st => st
  | .outOfFuel st => st

/-! ## Event dispatch inside a block -/

/-- Result of scanning the tab-prefixed continuation lines of an
`email` line (the `for (j = 1; queue[i + j][0] === '\t'; j += 1)` loop,
started on the lines *after* the header).  `none` models the loop
condition reading past the end of `queue` (a thrown `TypeError`). -/
structure EmailScan where
  /-- How many tab-prefixed lines were consumed (`j - 1` at loop exit). -/
  tabCount : Nat
  /-- The accumulated `queue[i + j].substring(1) + '\n'` pieces. -/
  body : String
  /-- The first non-tab line, `queue[i + j]` at loop exit: checked for
  `"endemail"` and skipped by `i += j`. -/
  sentinel : String
deriving DecidableEq

/-- Scan continuation lines: the input is the list of lines after the
`email` header line. -/
def emailScanL : List String → Option EmailScan
  | [] => none
  | l :: ls =>
    if startsWithTab l then
      (emailScanL ls).map (fun r =>
        { r with tabCount := r.tabCount + 1, body := strDrop l 1 ++ "\n" ++ r.body })
    else some { tabCount := 0, body := "", sentinel := l }

/-- The formatted public relay message for a matched chat line
(line 230 of the source). -/
def formatChat (m : ChatMatch) : String :=
  "**[" ++ m.timestamp ++ "]**" ++
    (match m.role with
     | some r => if r = "" then "" else " *(" ++ r ++ ")*"
     | none => "") ++
    " " ++ m.username ++ " " ++
    (if m.identifier = "" then "" else "*[" ++ m.identifier ++ "]*") ++
    ": `" ++ m.message ++ "`"

/-- What the `chat` branch (lines 204-234) decides for one chat line:
`cnt` is the line after its first space. -/
inductive ChatRes where
  /-- The pattern did not match: silent skip (line 211). -/
  | noMatch
  /-- Matched, but the message starts with `/`, is shorter than 3
  chars, or starts with `redeem`: skip (line 217). -/
  | noise
  /-- Matched, a banned word was found and `staffChannel` is truthy:
  the notice is sent — by line 225, to `channel`, the public relay. -/
  | flaggedSend (notice : String)
  /-- Matched, a banned word was found but `staffChannel` is not
  configured: nothing is sent (line 225's guard fails). -/
  | flaggedDrop
  /-- Relayed to the public channel (line 231). -/
  | relay (msg : String)
deriving DecidableEq

/-- The decision of the `chat` branch, in exactly the source's order:
pattern match (line 210), then the noise filters (line 216), then the
banned-word check (lines 220-227), then relay (lines 230-231). -/
def chatOutcome (env : Env) (cnt : String) : ChatRes :=
  match jsChatMatch cnt with
  | none => .noMatch
  | some m =>
    if strStartsWith m.message "/" || decide (strLen m.message < 3)
        || strStartsWith m.message "redeem" then .noise
    else if !env.words.isEmpty && hasBannedWord env.words m.message then
      if env.staffConfigured then
        .flaggedSend ("**Usage of blocked word:**\n" ++ codeBlock "text" cnt)
      else .flaggedDrop
    else .relay (formatChat m)

/-- The `for` loop of `processBuffer` (lines 191-248) over the block
`queue`, processing the suffix of lines still to be handled.  `fuel`
only bounds the number of iterations so that the recursion is
structural (each iteration consumes at least one line, so any
`fuel > queue.length` is enough; see `processLinesF_fuel_eq`). -/
def processLinesF (env : Env) : Nat → List String → SessionState → POut
  | 0, _, st => .outOfFuel st
  | _ + 1, [], st => .done st
  | fuel + 1, line :: rest, st =>
    if env.channelOk = false then .retEarly st
    else
      let tok := firstTok line
      if tok = "player" then
        processLinesF env fuel rest { st with population := st.population + 1 }
      else if tok = "chat" then
        match chatOutcome env (headOf line) with
        | .noMatch => processLinesF env fuel rest st
        | .noise => processLinesF env fuel rest st
        | .flaggedSend notice =>
          processLinesF env fuel rest { st with sends := st.sends ++ [notice] }
        | .flaggedDrop => processLinesF env fuel rest st
        | .relay msg =>
          processLinesF env fuel rest { st with sends := st.sends ++ [msg] }
      else if tok = "email" then
        match emailScanL rest with
        | none => .crash st
        | some r =>
          let body := "\n```\n" ++ r.body ++ "```"
          processLinesF env fuel (rest.drop (r.tabCount + 1))
            { st with
              sends := st.sends ++ [headOf line ++ body]
              logs := st.logs ++
                (if strContains r.sentinel "endemail" then []
                 else ["Bad email (no endemail)"]) }
      else
        processLinesF env fuel rest
          { st with logs := st.logs ++ ["Unknown token: " ++ tok] }

/-- Block dispatch with sufficient fuel. -/
def processLines (env : Env) (queue : List String) (st : SessionState) : POut :=
  processLinesF env (queue.length + 1) queue st

/-- The activity text `refreshStatus` (lines 114-130) displays for a
given `online` flag and population. -/
def statusText (online : Bool) (population : Nat) : String :=
  if online then toString population ++ " players" else "0 players"

/-- `refreshStatus` (lines 114-130): presence text from `online` and
`population`. -/
def refreshStatus (st : SessionState) : SessionState :=
  { st with activity := some (statusText st.online st.population) }

/-- Line 253: `buffer = buffer.slice(buffer.indexOf('end') + 1, buffer.length)`. -/
def truncateBuf (st : SessionState) : SessionState :=
  { st with buffer :=
      jsSlice st.buffer (jsIndexOf st.buffer "end" + 1) (st.buffer.length : Int) }

/-- `processBuffer` (lines 186-254), with `debug = false` baked in.
The block `queue` is the slice strictly between the first `"begin"`
and the first `"end"` (line 189). -/
def processBuffer (env : Env) (st : SessionState) : POut :=
  if st.buffer.contains "begin" then
    match processLines env
        (jsSlice st.buffer (jsIndexOf st.buffer "begin" + 1) (jsIndexOf st.buffer "end"))
        { st with population := 0 } with
    | .done st' => .done (truncateBuf (refreshStatus st'))
    | r => r
  else
    .done (truncateBuf
      { st with logs := st.logs ++ ["Bad data (no begin); ignoring"] })

/-- Number of lines of a block whose first whitespace-delimited token
is `player`. -/
def playerCount (queue : List String) : Nat :=
  queue.countP (fun l => firstTok l == "player")

/-- Well-formedness of a block, fuelled like `processLinesF`: every
`email` line's tab-prefixed continuation lines are followed, inside the
block, by a sentinel line that is literally `endemail`. -/
def wfBlockF : Nat → List String → Bool
  | 0, _ => false
  | _ + 1, [] => true
  | fuel + 1, line :: rest =>
    if firstTok line == "email" then
      match emailScanL rest with
      | none => false
      | some r => r.sentinel == "endemail" && wfBlockF fuel (rest.drop (r.tabCount + 1))
    else wfBlockF fuel rest

/-- Well-formedness of a block. -/
def wfBlock (queue : List String) : Bool := wfBlockF (queue.length + 1) queue

/-! ## Connection manager (Util.ts lines 84-167)

The socket handlers are modelled as the timed sequences of primitive
effects they perform.  `onErr` (lines 136-139) and `onEnd` (lines
145-149) run at the moment the error/close event fires; the
`setTimeout(attemptReconnect, 10000)` callback runs 10000 ms later and
performs `attemptReconnect`'s effects (lines 155-167) with whatever
`online`/`population` hold at that moment (`online` is `false` unless
some other connect callback ran in between, since `onErr`/`onEnd` just
set it to `false`).  The source's `debug` is the constant `false`.
-/

inductive SockEv where
  /-- An assignment to the `online` flag. -/
  | setOnline (b : Bool)
  /-- `setTimeout(attemptReconnect, delayMs)`. -/
  | schedule (delayMs : Nat)
  /-- A console log line. -/
  | logMsg (msg : String)
  /-- A `refreshStatus()` call, i.e. `setActivity` with this text. -/
  | refresh (text : String)
  /-- `net.connect(options, ...)` issued (the reconnect attempt). -/
  | connectStart
deriving DecidableEq

/-- Is this event a presence refresh? -/
def SockEv.isRefresh : SockEv → Bool
  | .refresh _ => true
  | _ => false

/-- The effects of `onErr` (lines 136-139), in order. -/
def onErrEvents : List SockEv := [.setOnline false, .schedule 10000]

/-- The effects of `onEnd` (lines 145-149), in order. -/
def onEndEvents : List SockEv :=
  [.logMsg "Lost connection to monitor.", .setOnline false, .schedule 10000]

/-- The effects of `attemptReconnect` (lines 155-167), in order, given
the `debug` flag and the values of `online` and `population` when the
timer fires.  `refreshStatus` is called before the new `net.connect`,
and only when `debug` is false. -/
def attemptReconnectEvents (debug online : Bool) (population : Nat) : List SockEv :=
  [.logMsg "Attempting to reconnect..."] ++
    (if !debug then [.refresh (statusText online population)] else []) ++
    [.connectStart]

/-- Tag every event of a handler with the time it runs. -/
def timedAt (t : Nat) (evs : List SockEv) : List (Nat × SockEv) :=
  evs.map (fun e => (t, e))

/-- Timeline of a socket `error` event at time `t`: the `onErr` effects
at `t`, then — the timer delay being 10000 ms — the `attemptReconnect`
effects at `t + 10000`, reading `online`/`population` at that moment. -/
def errTimeline (t : Nat) (online : Bool) (population : Nat) : List (Nat × SockEv) :=
  timedAt t onErrEvents ++ timedAt (t + 10000) (attemptReconnectEvents false online population)

/-- Timeline of a socket `end` (close) event at time `t`. -/
def endTimeline (t : Nat) (online : Bool) (population : Nat) : List (Nat × SockEv) :=
  timedAt t onEndEvents ++ timedAt (t + 10000) (attemptReconnectEvents false online population)

/-! ## General lemmas about the embedding -/

/-- Block dispatch never changes the buffer: every mutation inside the
loop touches `population`, `sends` or `logs` only. -/
theorem processLinesF_buffer (env : Env) (fuel : Nat) :
    ∀ (q : List String) (st : SessionState),
      (processLinesF env fuel q st).state.buffer = st.buffer := by
  induction fuel with
  | zero => intro q st; rfl
  | succ n ih =>
    intro q st
    cases q with
    | nil => rfl
    | cons line rest =>
      simp only [processLinesF]
      repeat' split
      all_goals first | rfl | exact ih _ _

/-- With more fuel than lines, the fuel never runs out (each iteration
consumes at least one line), so `processLines`' fuel `length + 1` is
sufficient. -/
theorem processLinesF_ne_outOfFuel (env : Env) (fuel : Nat) :
    ∀ (q : List String) (st st' : SessionState), q.length < fuel →
      processLinesF env fuel q st ≠ .outOfFuel st' := by
  induction fuel with
  | zero => intro q st st' h; exact absurd h (Nat.not_lt_zero _)
  | succ n ih =>
    intro q st st' h
    cases q with
    | nil => simp [processLinesF]
    | cons line rest =>
      have hrest : rest.length < n := by
        simpa using Nat.lt_of_succ_lt_succ h
      simp only [processLinesF]
      repeat' split
      all_goals first
        | exact ih _ _ _ hrest
        | exact ih _ _ _ (by simp [List.length_drop]; omega)
        | simp

/-- An index found by `idxOf₀` is in bounds. -/
theorem idxOf₀_lt_length (x : String) :
    ∀ (l : List String) (n : Nat), idxOf₀ x l = some n → n < l.length := by
  intro l
  induction l with
  | nil => intro n h; cases h
  | cons y ys ih =>
    intro n h
    simp only [idxOf₀] at h
    split at h
    · cases h; simp
    · rcases Option.map_eq_some'.mp h with ⟨m, hm, rfl⟩
      have := ih m hm
      simp; omega

/-- JS `l.slice(n + 1, l.length)` for an in-bounds `n` is `drop (n+1)`. -/
theorem jsSlice_drop (l : List String) (n : Nat) (hn : n < l.length) :
    jsSlice l ((n : Int) + 1) (l.length : Int) = l.drop (n + 1) := by
  unfold jsSlice
  have h1 : ¬((n : Int) + 1 < 0) := by omega
  have h2 : ¬((l.length : Int) < 0) := by omega
  simp only [h1, h2, if_false]
  have h3 : ((n : Int) + 1).toNat = n + 1 := by omega
  have h4 : ((l.length : Int)).toNat = l.length := by omega
  rw [h3, h4]
  have h5 : min (n + 1) l.length = n + 1 := by omega
  have h6 : min l.length l.length = l.length := by omega
  rw [h5, h6]
  exact List.take_of_length_le (by simp [List.length_drop])

/-- A tab-prefixed line is never a `player` line. -/
theorem startsWithTab_not_player (t : String) (h : startsWithTab t = true) :
    (firstTok t == "player") = false := by
  unfold startsWithTab at h
  cases hl : t.toList with
  | nil => rw [hl] at h; cases h
  | cons c cs =>
    rw [hl] at h
    have hc : c = '\t' := by
      by_contra hne
      rw [show (match c :: cs with | '\t' :: _ => true | _ => false) = false from by
        cases c; simp_all] at h
      cases h
    subst hc
    have hft : firstTok t = ⟨'\t' :: firstTokL cs⟩ := by
      unfold firstTok
      rw [hl]
      simp [firstTokL]
    rw [hft]
    apply beq_eq_false_iff_ne.mpr
    intro heq
    have hdata := congrArg String.toList heq
    simp only [String.toList] at hdata
    simp at hdata

/-- Successful email continuation scans decompose the line list as:
the consumed tab lines, then the sentinel, then the remainder. -/
theorem emailScanL_some (ls : List String) :
    ∀ (r : EmailScan), emailScanL ls = some r →
      ∃ ts : List String, ls = ts ++ r.sentinel :: ls.drop (r.tabCount + 1)
        ∧ ts.length = r.tabCount
        ∧ (∀ t ∈ ts, startsWithTab t = true)
        ∧ startsWithTab r.sentinel = false := by
  induction ls with
  | nil => intro r h; cases h
  | cons l ls ih =>
    intro r h
    simp only [emailScanL] at h
    split at h
    case isTrue hTab =>
      rcases Option.map_eq_some'.mp h with ⟨r0, hr0, rfl⟩
      rcases ih r0 hr0 with ⟨ts0, hdecomp, hlen, htabs, hsent⟩
      refine ⟨l :: ts0, ?_, ?_, ?_, ?_⟩
      · simpa using congrArg (l :: ·) hdecomp
      · simpa using hlen
      · intro t ht
        rcases List.mem_cons.mp ht with rfl | ht0
        · exact hTab
        · exact htabs t ht0
      · exact hsent
    case isFalse hTab =>
      cases h
      exact ⟨[], by simp, rfl, by simp, by simpa using hTab⟩

/-- Consuming an email's continuation lines skips no `player` lines
when the sentinel is the literal `endemail` line. -/
theorem emailScanL_playerCount (ls : List String) (r : EmailScan)
    (h : emailScanL ls = some r) (hsent : r.sentinel = "endemail") :
    playerCount ls = playerCount (ls.drop (r.tabCount + 1)) := by
  rcases emailScanL_some ls r h with ⟨ts, hdec, hlen, htabs, _⟩
  conv_lhs => rw [hdec]
  unfold playerCount
  rw [List.countP_append, List.countP_cons]
  have hts : List.countP (fun l => firstTok l == "player") ts = 0 :=
    List.countP_eq_zero.mpr (fun a ha => by
      simp [startsWithTab_not_player a (htabs a ha)])
  rw [hts, hsent]
  simp [show (firstTok "endemail" == "player") = false from by decide]

/-- Master lemma for population counting: when the channel resolves and
the block is well-formed, block dispatch completes and adds exactly the
number of `player` lines to the population. -/
theorem processLinesF_population (env : Env) (hch : env.channelOk = true) (fuel : Nat) :
    ∀ (q : List String) (st : SessionState), q.length < fuel → wfBlockF fuel q = true →
      ∃ st', processLinesF env fuel q st = .done st'
        ∧ st'.population = st.population + playerCount q := by
  induction fuel with
  | zero => intro q st h _; exact absurd h (Nat.not_lt_zero _)
  | succ n ih =>
    intro q st hlen hwf
    cases q with
    | nil => exact ⟨st, rfl, by simp [playerCount]⟩
    | cons line rest =>
      have hrest : rest.length < n := by simpa using Nat.lt_of_succ_lt_succ hlen
      simp only [processLinesF]
      rw [if_neg (by simp [hch])]
      by_cases hp : firstTok line = "player"
      · rw [if_pos hp]
        have hwf' : wfBlockF n rest = true := by
          simp only [wfBlockF] at hwf
          rwa [if_neg (by simp [hp])] at hwf
        rcases ih rest { st with population := st.population + 1 } hrest hwf' with
          ⟨st', hrun, hpop⟩
        refine ⟨st', hrun, ?_⟩
        rw [hpop]
        simp only [playerCount, List.countP_cons]
        simp [hp]
        omega
      · rw [if_neg hp]
        have hcount : playerCount (line :: rest) = playerCount rest := by
          simp [playerCount, List.countP_cons, hp]
        by_cases hc : firstTok line = "chat"
        · rw [if_pos hc]
          have hwf' : wfBlockF n rest = true := by
            simp only [wfBlockF] at hwf
            rwa [if_neg (by simp [hc])] at hwf
          rw [hcount]
          cases hco : chatOutcome env (headOf line) with
          | noMatch => exact ih rest st hrest hwf'
          | noise => exact ih rest st hrest hwf'
          | flaggedDrop => exact ih rest st hrest hwf'
          | flaggedSend notice =>
            rcases ih rest { st with sends := st.sends ++ [notice] } hrest hwf' with
              ⟨st', hrun, hpop⟩
            exact ⟨st', hrun, by simpa using hpop⟩
          | relay msg =>
            rcases ih rest { st with sends := st.sends ++ [msg] } hrest hwf' with
              ⟨st', hrun, hpop⟩
            exact ⟨st', hrun, by simpa using hpop⟩
        · rw [if_neg hc]
          by_cases he : firstTok line = "email"
          · rw [if_pos he]
            simp only [wfBlockF] at hwf
            rw [if_pos (by simp [he])] at hwf
            cases hscan : emailScanL rest with
            | none => rw [hscan] at hwf; cases hwf
            | some r =>
              rw [hscan] at hwf
              rw [Bool.and_eq_true] at hwf
              rcases hwf with ⟨hsentB, hwf'⟩
              have hsent : r.sentinel = "endemail" := by
                exact beq_iff_eq.mp hsentB
              have hdroplen : (rest.drop (r.tabCount + 1)).length < n := by
                simp [List.length_drop]; omega
              rcases ih (rest.drop (r.tabCount + 1)) _ hdroplen hwf' with
                ⟨st', hrun, hpop⟩
              refine ⟨st', hrun, ?_⟩
              rw [hpop, hcount, emailScanL_playerCount rest r hscan hsent]
          · rw [if_neg he]
            have hwf' : wfBlockF n rest = true := by
              simp only [wfBlockF] at hwf
              rwa [if_neg (by simp [he])] at hwf
            rcases ih rest { st with logs := st.logs ++ ["Unknown token: " ++ firstTok line] }
              hrest hwf' with ⟨st', hrun, hpop⟩
            exact ⟨st', hrun, by rw [hpop, hcount]⟩

/-- If `pat` occurs in `cs`, it occurs in `c :: cs`. -/
theorem occursIn_cons_of (pat : List Char) (c : Char) (cs : List Char)
    (h : occursIn pat cs = true) : occursIn pat (c :: cs) = true := by
  simp [occursIn, h]

/-- Any successful match of the `(.*?) \[(.*?)]?: (.*)` tail contains
the two-character sequence `" ["`. -/
theorem jsMatchUserTail_sp_lb :
    ∀ (t : List Char) (r : List Char × List Char × List Char),
      jsMatchUserTail t = some r → occursIn [' ', '['] t = true := by
  intro t
  induction t using jsMatchUserTail.induct with
  | case1 => intro r h; simp [jsMatchUserTail] at h
  | case2 rest r0 hid =>
    intro r h
    simp [occursIn, List.isPrefixOf]
  | case3 rest hid ih =>
    intro r h
    simp only [jsMatchUserTail, hid] at h
    rcases Option.map_eq_some'.mp h with ⟨r0, hr0, rfl⟩
    exact occursIn_cons_of _ _ _ (ih r0 hr0)
  | case4 cs hshape ih =>
    intro r h
    cases cs with
    | nil => simp [jsMatchUserTail] at h
    | cons d ds =>
      have hd : ¬d = '[' := fun hh => hshape ds (by rw [hh])
      simp only [jsMatchUserTail] at h
      rcases Option.map_eq_some'.mp h with ⟨r0, hr0, rfl⟩
      exact occursIn_cons_of _ _ _ (ih r0 hr0)
  | case5 c cs hc ih =>
    intro r h
    have hc' : ¬c = ' ' := hc
    simp only [jsMatchUserTail] at h
    rcases Option.map_eq_some'.mp h with ⟨r0, hr0, rfl⟩
    exact occursIn_cons_of _ _ _ (ih r0 hr0)

/-- Any successful match of the ` (.*?) \[(.*?)]?: (.*)` tail contains
`" ["`. -/
theorem jsMatchSpUserTail_sp_lb (s : List Char) (r : List Char × List Char × List Char)
    (h : jsMatchSpUserTail s = some r) : occursIn [' ', '['] s = true := by
  cases s with
  | nil => simp [jsMatchSpUserTail] at h
  | cons c cs =>
    by_cases hc : c = ' '
    · subst hc
      simp only [jsMatchSpUserTail] at h
      exact occursIn_cons_of _ _ _ (jsMatchUserTail_sp_lb cs r h)
    · simp [jsMatchSpUserTail, hc] at h

/-- Any successful match of the role tail contains `" ["`. -/
theorem jsMatchRoleScan_sp_lb :
    ∀ (s : List Char) (r : List Char × List Char × List Char × List Char),
      jsMatchRoleScan s = some r → occursIn [' ', '['] s = true := by
  intro s
  induction s using jsMatchRoleScan.induct with
  | case1 => intro r h; simp [jsMatchRoleScan] at h
  | case2 rest r0 hsp =>
    intro r h
    exact occursIn_cons_of _ _ _ (jsMatchSpUserTail_sp_lb rest r0 hsp)
  | case3 rest hsp ih =>
    intro r h
    simp only [jsMatchRoleScan, hsp] at h
    rcases Option.map_eq_some'.mp h with ⟨r0, hr0, rfl⟩
    exact occursIn_cons_of _ _ _ (ih r0 hr0)
  | case4 c cs hc ih =>
    intro r h
    have hc' : ¬c = ')' := hc
    simp only [jsMatchRoleScan] at h
    rcases Option.map_eq_some'.mp h with ⟨r0, hr0, rfl⟩
    exact occursIn_cons_of _ _ _ (ih r0 hr0)

/-- Any successful match of everything after the timestamp's `]`
contains `" ["`. -/
theorem jsMatchAfterTs_sp_lb (s : List Char)
    (r : Option (List Char) × List Char × List Char × List Char)
    (h : jsMatchAfterTs s = some r) : occursIn [' ', '['] s = true := by
  unfold jsMatchAfterTs at h
  split at h
  next rest =>
    cases hrs : jsMatchRoleScan rest with
    | some r0 =>
      exact occursIn_cons_of _ _ _
        (occursIn_cons_of _ _ _ (jsMatchRoleScan_sp_lb rest r0 hrs))
    | none =>
      rw [hrs] at h
      rcases Option.map_eq_some'.mp h with ⟨r1, hr1, rfl⟩
      exact jsMatchSpUserTail_sp_lb _ _ hr1
  next =>
    rcases Option.map_eq_some'.mp h with ⟨r1, hr1, rfl⟩
    exact jsMatchSpUserTail_sp_lb _ _ hr1

/-- Any successful match of the timestamp scan contains `" ["`. -/
theorem jsMatchTsScan_sp_lb :
    ∀ (s : List Char)
      (r : List Char × Option (List Char) × List Char × List Char × List Char),
      jsMatchTsScan s = some r → occursIn [' ', '['] s = true := by
  intro s
  induction s using jsMatchTsScan.induct with
  | case1 => intro r h; simp [jsMatchTsScan] at h
  | case2 rest r0 hat =>
    intro r h
    exact occursIn_cons_of _ _ _ (jsMatchAfterTs_sp_lb rest r0 hat)
  | case3 rest hat ih =>
    intro r h
    simp only [jsMatchTsScan, hat] at h
    rcases Option.map_eq_some'.mp h with ⟨r0, hr0, rfl⟩
    exact occursIn_cons_of _ _ _ (ih r0 hr0)
  | case4 c cs hc ih =>
    intro r h
    have hc' : ¬c = ']' := hc
    simp only [jsMatchTsScan] at h
    rcases Option.map_eq_some'.mp h with ⟨r0, hr0, rfl⟩
    exact occursIn_cons_of _ _ _ (ih r0 hr0)

/-- A chat line that matches the source's pattern necessarily contains
the two-character sequence `" ["` (a space followed by an opening
bracket): the identifier segment's ` \[` is mandatory — only its
closing `]` is optional. -/
theorem jsChatMatch_sp_lb (cnt : String) (m : ChatMatch)
    (h : jsChatMatch cnt = some m) : occursIn [' ', '['] cnt.toList = true := by
  unfold jsChatMatch at h
  split at h
  next rest heq =>
    rcases Option.map_eq_some'.mp h with ⟨r0, hr0, _⟩
    rw [heq]
    exact occursIn_cons_of _ _ _ (jsMatchTsScan_sp_lb rest r0 hr0)
  next => simp at h

/-! ## Claims -/

/-- **C1** (amended).  The banned-word filter returns true exactly when
some listed word, lower-cased, is *equal to one of the whole
space-delimited tokens* of the lower-cased message — not when it merely
occurs as a substring: a banned word embedded inside a longer token
does not trigger the flag (see the counterexample below). -/
theorem bannedWordFilter_whole_token_iff (words : List String) (message : String) :
    hasBannedWord words message = true ↔
      ∃ w ∈ words, strToLower w ∈ splitSpaces (strToLower message) := by
  unfold hasBannedWord
  simp

/-- **C1** counterexample: `"bad"` occurs as a case-insensitive
substring of `"embedded xbadx here"` (so the claim's substring filter
flags it), but the source's filter does not flag it. -/
theorem bannedWordFilter_embedded_substring_not_flagged :
    hasBannedWord ["bad"] "embedded xbadx here" = false
      ∧ hasBannedWordSpec ["bad"] "embedded xbadx here" = true := by
  decide

/-- **C10** (confirmed).  The filter lower-cases each configured entry
before comparing, so its outcome is invariant under changing the letter
case of the entries of the banned-word list. -/
theorem bannedWordFilter_case_insensitive_in_list
    (words words' : List String) (message : String)
    (h : words.map strToLower = words'.map strToLower) :
    hasBannedWord words message = hasBannedWord words' message := by
  unfold hasBannedWord
  induction words generalizing words' with
  | nil =>
    cases words' with
    | nil => rfl
    | cons v vs => cases h
  | cons w ws ih =>
    cases words' with
    | nil => cases h
    | cons v vs =>
      simp only [List.map_cons, List.cons.injEq] at h
      rcases h with ⟨h1, h2⟩
      simp only [List.any_cons]
      rw [h1, ih vs h2]

/-- **C10** witness: instantiated at a mixed-case list. -/
theorem bannedWordFilter_case_insensitive_in_list_witness :
    (["BadWord"].map strToLower = ["badword"].map strToLower)
      ∧ hasBannedWord ["BadWord"] "this HAS BADWORD in it"
          = hasBannedWord ["badword"] "this HAS BADWORD in it" :=
  ⟨by decide,
    bannedWordFilter_case_insensitive_in_list ["BadWord"] ["badword"]
      "this HAS BADWORD in it" (by decide)⟩

/-- Line 253's truncation, for a buffer whose first `"end"` is at
index `n`: drop everything up to and including it. -/
theorem truncateBuf_eq_drop (st0 : SessionState) (n : Nat)
    (h : idxOf₀ "end" st0.buffer = some n) :
    truncateBuf st0 = { st0 with buffer := st0.buffer.drop (n + 1) } := by
  unfold truncateBuf
  have h1 : jsIndexOf st0.buffer "end" = (n : Int) := by
    unfold jsIndexOf; rw [h]
  rw [h1, jsSlice_drop st0.buffer n (idxOf₀_lt_length _ _ _ h)]

/-- **C2** (amended).  The noise filters run *before* the banned-word
check: whenever a parsed chat message starts with `/`, is shorter than
3 characters, or starts with `redeem`, the line is skipped as noise —
no moderation notice is produced, even if the message contains a
banned word. -/
theorem noiseFilters_precede_bannedWordCheck (env : Env) (cnt : String) (m : ChatMatch)
    (hm : jsChatMatch cnt = some m)
    (hnoise : (strStartsWith m.message "/" || decide (strLen m.message < 3)
        || strStartsWith m.message "redeem") = true) :
    chatOutcome env cnt = ChatRes.noise := by
  unfold chatOutcome
  rw [hm]
  simp only [hnoise, if_true]

/-- **C2** witness. -/
theorem noiseFilters_precede_bannedWordCheck_witness :
    (jsChatMatch "[12:00] Bob [id]: /x badword"
        = some ⟨"12:00", none, "Bob", "id", "/x badword"⟩)
      ∧ (strStartsWith "/x badword" "/" || decide (strLen "/x badword" < 3)
          || strStartsWith "/x badword" "redeem") = true
      ∧ chatOutcome { channelOk := true, staffConfigured := true, words := ["badword"] }
          "[12:00] Bob [id]: /x badword" = ChatRes.noise :=
  ⟨by decide, by decide,
    noiseFilters_precede_bannedWordCheck
      { channelOk := true, staffConfigured := true, words := ["badword"] }
      "[12:00] Bob [id]: /x badword"
      ⟨"12:00", none, "Bob", "id", "/x badword"⟩ (by decide) (by decide)⟩

/-- **C2** counterexample: `"/x badword"` contains the configured
banned word `badword` as a whole token, yet the line is dismissed as
noise (slash prefix) and no moderation notice is produced. -/
theorem bannedWord_in_slash_message_not_flagged :
    chatOutcome { channelOk := true, staffConfigured := true, words := ["badword"] }
        "[12:00] Bob [id]: /x badword" = ChatRes.noise
      ∧ hasBannedWord ["badword"] "/x badword" = true := by
  decide

/-- **C3** (code bug).  Line 225 reads
`if (staffChannel) channel.send(...)`: the guard checks the moderation
sink but the notice is sent to `channel`, the *public relay* sink.  At
a flagged chat line with a staff channel configured, the run ends with
the notice in `sends` (public channel) and nothing in `staffSends`. -/
theorem flagged_notice_sent_to_public_channel :
    processBuffer { channelOk := true, staffConfigured := true, words := ["badword"] }
        { buffer := ["begin", "chat [12:00] Bob [id]: has badword here", "end"],
          population := 7, online := true, sends := [], staffSends := [],
          logs := [], activity := none }
      = POut.done
          { buffer := [], population := 0, online := true,
            sends := ["**Usage of blocked word:**\n```text\n[12:00] Bob [id]: has badword here\n```"],
            staffSends := [], logs := [], activity := some "0 players" } := by
  decide

/-- **C4** (code bug).  When an `email` header's tab-prefixed
continuation lines run to the end of the block, the loop condition
`queue[i + j][0] === '\t'` reads `[0]` of `undefined`: a `TypeError`
is thrown (modelled as `POut.crash`), the buffer is not truncated, and
no diagnostic is logged — processing does *not* log-and-continue. -/
theorem email_missing_terminator_crashes :
    processBuffer { channelOk := true, staffConfigured := false, words := [] }
        { buffer := ["begin", "email Subject", "\tline", "end"], population := 7,
          online := true, sends := [], staffSends := [], logs := [], activity := none }
      = POut.crash
          { buffer := ["begin", "email Subject", "\tline", "end"], population := 0,
            online := true, sends := [], staffSends := [], logs := [], activity := none } := by
  decide


/-- **C5** (amended).  Whenever `processBuffer` runs to completion
(outcome `done` — no early `return` from a missing/non-text channel,
no thrown email `TypeError`), everything up to and including the first
`"end"` sentinel is discarded from the buffer.  The early-return and
crash paths skip line 253 and retain the buffer (see the
counterexample). -/
theorem processBuffer_done_truncates_buffer (env : Env) (st st' : SessionState) (n : Nat)
    (hend : idxOf₀ "end" st.buffer = some n)
    (hdone : processBuffer env st = POut.done st') :
    st'.buffer = st.buffer.drop (n + 1) := by
  unfold processBuffer at hdone
  split at hdone
  · cases hrun : processLines env
        (jsSlice st.buffer (jsIndexOf st.buffer "begin" + 1) (jsIndexOf st.buffer "end"))
        { st with population := 0 } with
    | done st2 =>
      rw [hrun] at hdone
      have hdone2 : POut.done (truncateBuf (refreshStatus st2)) = POut.done st' := hdone
      have hb : st2.buffer = st.buffer := by
        have hinv := processLinesF_buffer env
          ((jsSlice st.buffer (jsIndexOf st.buffer "begin" + 1) (jsIndexOf st.buffer "end")).length + 1)
          (jsSlice st.buffer (jsIndexOf st.buffer "begin" + 1) (jsIndexOf st.buffer "end"))
          { st with population := 0 }
        unfold processLines at hrun
        rw [hrun] at hinv
        simpa using hinv
      have hend2 : idxOf₀ "end" (refreshStatus st2).buffer = some n := by
        show idxOf₀ "end" st2.buffer = some n
        rw [hb]; exact hend
      rw [truncateBuf_eq_drop (refreshStatus st2) n hend2] at hdone2
      have hst' := (POut.done.injEq _ _).mp hdone2
      rw [← hst']
      show (refreshStatus st2).buffer.drop (n + 1) = st.buffer.drop (n + 1)
      show st2.buffer.drop (n + 1) = st.buffer.drop (n + 1)
      rw [hb]
    | retEarly st2 =>
      rw [hrun] at hdone
      have h2 : POut.retEarly st2 = POut.done st' := hdone
      cases h2
    | crash st2 =>
      rw [hrun] at hdone
      have h2 : POut.crash st2 = POut.done st' := hdone
      cases h2
    | outOfFuel st2 =>
      rw [hrun] at hdone
      have h2 : POut.outOfFuel st2 = POut.done st' := hdone
      cases h2
  · rw [truncateBuf_eq_drop
        { st with logs := st.logs ++ ["Bad data (no begin); ignoring"] } n hend] at hdone
    have hst' := (POut.done.injEq _ _).mp hdone
    rw [← hst']

/-- **C5** witness. -/
theorem processBuffer_done_truncates_buffer_witness :
    (idxOf₀ "end" ["begin", "player a", "end"] = some 2)
      ∧ (processBuffer { channelOk := true, staffConfigured := false, words := [] }
          { buffer := ["begin", "player a", "end"], population := 3, online := true,
            sends := [], staffSends := [], logs := [], activity := none }
        = POut.done
          { buffer := [], population := 1, online := true, sends := [], staffSends := [],
            logs := [], activity := some "1 players" })
      ∧ ({ buffer := ([] : List String), population := 1, online := true, sends := [],
            staffSends := [], logs := [], activity := some "1 players" }
          : SessionState).buffer
        = (["begin", "player a", "end"] : List String).drop 3 :=
  ⟨by decide, by decide,
    processBuffer_done_truncates_buffer
      { channelOk := true, staffConfigured := false, words := [] }
      { buffer := ["begin", "player a", "end"], population := 3, online := true,
        sends := [], staffSends := [], logs := [], activity := none }
      { buffer := [], population := 1, online := true, sends := [], staffSends := [],
        logs := [], activity := some "1 players" }
      2 (by decide) (by decide)⟩

/-- **C5** counterexample: when the configured channel does not resolve
to a guild-text channel, the `return` at line 194 fires on the block's
first line and skips line 253, so the consumed block — `"end"` sentinel
included — is retained in the buffer, contradicting the claim's
"regardless of how processing of the block's interior lines went". -/
theorem processBuffer_earlyReturn_retains_buffer :
    processBuffer { channelOk := false, staffConfigured := false, words := [] }
        { buffer := ["begin", "player x", "end"], population := 3, online := true,
          sends := [], staffSends := [], logs := [], activity := none }
      = POut.retEarly
        { buffer := ["begin", "player x", "end"], population := 0, online := true,
          sends := [], staffSends := [], logs := [], activity := none } := by
  decide

/-- **C6** (confirmed).  For a well-formed block (every `email`'s
continuation lines terminated by a literal `endemail` sentinel line
inside the block) processed with the channel resolving, block dispatch
completes and the resulting population is exactly the number of lines
whose first whitespace-delimited token is `player`, whatever other
line kinds are present. -/
theorem population_eq_playerCount (env : Env) (q : List String) (st : SessionState)
    (hch : env.channelOk = true) (hwf : wfBlock q = true) :
    ∃ st', processLines env q { st with population := 0 } = POut.done st'
      ∧ st'.population = playerCount q := by
  rcases processLinesF_population env hch (q.length + 1) q { st with population := 0 }
      (by omega) (by simpa [wfBlock] using hwf) with ⟨st', hrun, hpop⟩
  exact ⟨st', hrun, by simpa using hpop⟩

/-- **C6** witness: a block mixing `player`, `chat`, `email` and
unknown lines, with 2 `player` lines. -/
theorem population_eq_playerCount_witness :
    ({ channelOk := true, staffConfigured := false, words := [] } : Env).channelOk = true
      ∧ wfBlock ["player Bob", "chat [12:00] (Mod) Alice [id1]: hello there",
          "email Subject here", "\tbody1", "\tbody2", "endemail", "junkline",
          "player Ann"] = true
      ∧ ∃ st', processLines { channelOk := true, staffConfigured := false, words := [] }
          ["player Bob", "chat [12:00] (Mod) Alice [id1]: hello there",
            "email Subject here", "\tbody1", "\tbody2", "endemail", "junkline",
            "player Ann"]
          { buffer := [], population := 0, online := true, sends := [], staffSends := [],
            logs := [], activity := none }
          = POut.done st'
        ∧ st'.population = playerCount ["player Bob",
            "chat [12:00] (Mod) Alice [id1]: hello there", "email Subject here",
            "\tbody1", "\tbody2", "endemail", "junkline", "player Ann"] :=
  ⟨by decide, by decide,
    population_eq_playerCount { channelOk := true, staffConfigured := false, words := [] }
      ["player Bob", "chat [12:00] (Mod) Alice [id1]: hello there",
        "email Subject here", "\tbody1", "\tbody2", "endemail", "junkline", "player Ann"]
      { buffer := [], population := 99, online := true, sends := [], staffSends := [],
        logs := [], activity := none }
      (by decide) (by decide)⟩

/-- **C7** (amended).  The identifier *segment* is not optional in the
chat pattern — only its closing `]` is.  Any line in which the
two-character sequence `" ["` does not occur (in particular every line
of the form `[timestamp] username: message` with no identifier
segment) fails to match and is silently dropped. -/
theorem chatMatch_requires_space_bracket (cnt : String)
    (hno : occursIn [' ', '['] cnt.toList = false) : jsChatMatch cnt = none := by
  cases hm : jsChatMatch cnt with
  | none => rfl
  | some m => rw [jsChatMatch_sp_lb cnt m hm] at hno; cases hno

/-- **C7** witness. -/
theorem chatMatch_requires_space_bracket_witness :
    occursIn [' ', '['] "[12:00] Bob: hello".toList = false
      ∧ jsChatMatch "[12:00] Bob: hello" = none :=
  ⟨by decide, chatMatch_requires_space_bracket "[12:00] Bob: hello" (by decide)⟩

/-- **C7** counterexample: the claim's form `[timestamp] username:
message` (no identifier segment) does *not* match the pattern, so the
line is dropped, not relayed — the `chat` branch takes the no-match
path. -/
theorem chat_line_without_bracket_not_matched :
    jsChatMatch "[12:00] Bob: hello" = none
      ∧ chatOutcome { channelOk := true, staffConfigured := true, words := [] }
          "[12:00] Bob: hello" = ChatRes.noMatch
      ∧ jsChatMatch "[12:00] Bob [id]: hello" = some ⟨"12:00", none, "Bob", "id", "hello"⟩ := by
  decide

/-- **C8** (amended).  On a socket error or close event, `online` is
set to `false` immediately and a reconnect is scheduled with a fixed
10000 ms delay; the presence refresh reflecting the state happens
*only when the reconnect attempt fires*, i.e. exactly at the end of
the 10-second delay — not before it elapses. -/
theorem offline_refresh_only_when_reconnect_fires (t : Nat) (onl : Bool) (pop : Nat) :
    ((errTimeline t onl pop).filter (fun e => e.2.isRefresh)
        = [(t + 10000, SockEv.refresh (statusText onl pop))])
      ∧ (t, SockEv.setOnline false) ∈ errTimeline t onl pop
      ∧ (t, SockEv.schedule 10000) ∈ errTimeline t onl pop
      ∧ ((endTimeline t onl pop).filter (fun e => e.2.isRefresh)
        = [(t + 10000, SockEv.refresh (statusText onl pop))])
      ∧ (t, SockEv.setOnline false) ∈ endTimeline t onl pop
      ∧ (t, SockEv.schedule 10000) ∈ endTimeline t onl pop := by
  refine ⟨?_, ?_, ?_, ?_, ?_, ?_⟩ <;>
    simp [errTimeline, endTimeline, timedAt, onErrEvents, onEndEvents,
      attemptReconnectEvents, SockEv.isRefresh]

/-- **C8** counterexample: for an error (or close) at time 0, no
presence refresh occurs at any time strictly before the 10000 ms delay
elapses — the refresh comes only with the reconnect attempt itself. -/
theorem no_refresh_before_reconnect_delay :
    ((errTimeline 0 false 0).filter (fun e => e.2.isRefresh && decide (e.1 < 10000))) = []
      ∧ ((endTimeline 0 false 0).filter (fun e => e.2.isRefresh && decide (e.1 < 10000))) = [] := by
  decide

/-- **C9** (confirmed).  When the buffer contains an `"end"` token but
no `"begin"`, `processBuffer` only logs the bad-data diagnostic and
truncates the buffer past the first `"end"`: population, online flag,
sends, staff sends and activity are untouched (the structure update
below touches only `buffer` and `logs`). -/
theorem processBuffer_no_begin_frame (env : Env) (st : SessionState) (n : Nat)
    (hend : idxOf₀ "end" st.buffer = some n)
    (hnb : st.buffer.contains "begin" = false) :
    processBuffer env st = POut.done
      { st with buffer := st.buffer.drop (n + 1),
                logs := st.logs ++ ["Bad data (no begin); ignoring"] } := by
  unfold processBuffer
  rw [hnb]
  simp only [Bool.false_eq_true, if_false]
  rw [truncateBuf_eq_drop { st with logs := st.logs ++ ["Bad data (no begin); ignoring"] } n hend]

/-- **C9** witness. -/
theorem processBuffer_no_begin_frame_witness :
    (idxOf₀ "end" ["x", "end", "y"] = some 1)
      ∧ ((["x", "end", "y"] : List String).contains "begin" = false)
      ∧ processBuffer { channelOk := true, staffConfigured := true, words := ["w"] }
          { buffer := ["x", "end", "y"], population := 7, online := true,
            sends := ["s"], staffSends := [], logs := ["l"], activity := some "a" }
        = POut.done
          { buffer := ["y"], population := 7, online := true, sends := ["s"],
            staffSends := [], logs := ["l", "Bad data (no begin); ignoring"],
            activity := some "a" } :=
  ⟨by decide, by decide, by
    have h := processBuffer_no_begin_frame
      { channelOk := true, staffConfigured := true, words := ["w"] }
      { buffer := ["x", "end", "y"], population := 7, online := true,
        sends := ["s"], staffSends := [], logs := ["l"], activity := some "a" }
      1 (by decide) (by decide)
    simpa using h⟩
